import Mathlib

set_option autoImplicit false
set_option maxHeartbeats 1000000

/-!
Shallow embedding of the io_uring polling backend in
`src/unix/linux-io-uring.c` (libuv).  Pure functions below transcribe the
C functions; heap-allocated objects (watchers, UDP handles, send requests)
are identified by numeric ids, the kernel ring and the clock are explicit
oracle inputs, and every externally visible action (SQE writes, callback
invocations) is recorded in an event trace.
-/

namespace LibuvUring

/-! ## Errno and flag constants (Linux values, as used by the C source). -/

/-- Linux errno EAGAIN. -/
def EAGAIN : Int := 11
/-- Linux errno EWOULDBLOCK (same value as EAGAIN on Linux). -/
def EWOULDBLOCK : Int := 11
/-- Linux errno ETIME. -/
def ETIME : Int := 62
/-- Linux errno EBADF. -/
def EBADF : Int := 9
/-- Linux errno ECANCELED. -/
def ECANCELED : Int := 125
/-- Linux errno ENOBUFS. -/
def ENOBUFS : Int := 105

/-- Macro UV__ERR(x) negates a positive errno. -/
def uv__err (e : Int) : Int := -e

/-- libuv error code UV_EAGAIN (= -EAGAIN on Linux). -/
def UV_EAGAIN : Int := -EAGAIN
/-- libuv error code UV_ENOBUFS. -/
def UV_ENOBUFS : Int := -ENOBUFS
/-- libuv error code UV_EBADF. -/
def UV_EBADF : Int := -EBADF
/-- libuv error code UV_ECANCELED. -/
def UV_ECANCELED : Int := -ECANCELED

/-- Poll event bit POLLIN. -/
def POLLIN : Nat := 1
/-- Poll event bit POLLERR. -/
def POLLERR : Nat := 8
/-- Poll event bit POLLHUP. -/
def POLLHUP : Nat := 16
/-- Flag UV_UDP_PARTIAL_FLAG reported when a datagram was truncated. -/
def UV_UDP_PARTIAL_FLAG : Nat := 2

/-! ## Identities and completion tags. -/

/-- Identity of a `uv__io_t` watcher (stands for its address). -/
abbrev WId := Nat
/-- Identity of a `uv_udp_t` handle. -/
abbrev HandleId := Nat
/-- Identity of a `uv_udp_send_t` request. -/
abbrev ReqId := Nat

/-- Completion tag: the 64-bit `user_data` of a submission, echoed by its
completion.  In the C source the value `0`, the sentinel
`LIBURING_UDATA_TIMEOUT`, the address of a request's `uring_req_type`
field (whose first word is `UV__URING_UDP_SENDMSG` or
`UV__URING_UDP_RECVMSG`), and a watcher address are disjoint; the variant
type records that disjoint interpretation. -/
inductive Tag where
  | zero
  | timeoutSentinel
  | sendReq (r : ReqId)
  | recvHandle (h : HandleId)
  | watcher (w : WId)
deriving DecidableEq

/-- Completion-queue entry: tag plus 32-bit result. -/
structure Cqe where
  userData : Tag
  res : Int
deriving DecidableEq

/-- Operation stored in a submission-queue entry. -/
inductive SqeOp where
  | pollAdd (fd : Int) (mask : Nat)
  | pollRemove (target : WId)
  | sendmsg (fd : Int) (r : ReqId)
  | recvmsg (fd : Int) (h : HandleId)
deriving DecidableEq

/-- Submission-queue entry as written by this backend: the prepared
operation, its `user_data` tag, and whether `IOSQE_ASYNC` was set. -/
structure Sqe where
  op : SqeOp
  userData : Tag
  asyncFlag : Bool
deriving DecidableEq

/-! ## Ring state (struct uv__io_uring_data). -/

/-- Ring bookkeeping: `sqReady` is `io_uring_sq_ready` (entries written but
not yet submitted), `cap` the submission-queue size, `syncLimit` the
`sync_limit` threshold (40 after loop init). -/
structure Ring where
  sqReady : Nat
  cap : Nat
  syncLimit : Nat
deriving DecidableEq

/-- Function `uv__io_uring_submit` (lines 387-404): flushes the submission
queue if at least one entry is pending; `UV_EBUSY` back-pressure is benign
(model keeps only the queue-emptying effect). -/
def uv__io_uring_submit (r : Ring) : Ring :=
  if r.sqReady ≠ 0 then { r with sqReady := 0 } else r

/-- Function `uv__io_uring_get_sqe` (lines 407-418): obtain a submission
slot, flushing first when the queue is full.  After the call the new entry
counts towards `io_uring_sq_ready`. -/
def uv__io_uring_get_sqe (r : Ring) : Ring :=
  if r.sqReady = r.cap then { r with sqReady := 1 }
  else { r with sqReady := r.sqReady + 1 }

/-- Lines 167-173: poll-add SQE written by the watcher-submission stage;
`IOSQE_ASYNC` is set when `io_uring_sq_ready` exceeds `sync_limit`. -/
def writePollAddSqe (r : Ring) (w : WId) (fd : Int) (pevents : Nat) : Ring × Sqe :=
  let r1 := uv__io_uring_get_sqe r
  (r1, { op := .pollAdd fd pevents, userData := .watcher w,
         asyncFlag := decide (r1.sqReady > r1.syncLimit) })

/-- Lines 454-461: sendmsg SQE written by `uv__uring_udp_sendmsg`. -/
def writeSendSqe (r : Ring) (fd : Int) (req : ReqId) : Ring × Sqe :=
  let r1 := uv__io_uring_get_sqe r
  (r1, { op := .sendmsg fd req, userData := .sendReq req,
         asyncFlag := decide (r1.sqReady > r1.syncLimit) })

/-- Lines 525-532: recvmsg SQE written by `uv__uring_udp_recvmsg`. -/
def writeRecvSqe (r : Ring) (fd : Int) (h : HandleId) : Ring × Sqe :=
  let r1 := uv__io_uring_get_sqe r
  (r1, { op := .recvmsg fd h, userData := .recvHandle h,
         asyncFlag := decide (r1.sqReady > r1.syncLimit) })

/-- Function `uv__uring_platform_invalidate_fd` (lines 89-105): if a watcher
slot is occupied for `fd`, write a poll-remove SQE targeting that watcher's
identity, tag it `user_data = 0`, and submit.  Note the C source sets no
`IOSQE_ASYNC` flag at this site (`io_uring_prep_poll_remove` leaves
`sqe->flags` zero). -/
def uv__uring_platform_invalidate_fd (r : Ring) (slots : Int → Option WId)
    (fd : Int) : Ring × List Sqe :=
  match slots fd with
  | none => (r, [])
  | some w =>
    let r1 := uv__io_uring_get_sqe r
    (uv__io_uring_submit r1,
     [{ op := .pollRemove w, userData := .zero, asyncFlag := false }])

/-! ## Direct-datagram send path (uv__uring_udp_sendmsg / _done). -/

/-- Events emitted by the UDP direct-datagram path. -/
inductive UdpEv where
  | alloc
  | submitRecv (async : Bool)
  | clearReadPending
  | recvCb (status : Int) (hasAddr : Bool) (flags : Nat)
  | feed
  | submitSend (r : ReqId) (async : Bool)
deriving DecidableEq

/-- Send-side state of a `uv_udp_t` handle: the three intrusive request
queues and each request's stored `status` field. -/
structure UdpSendSt where
  write_queue : List ReqId
  write_pending_queue : List ReqId
  write_completed_queue : List ReqId
  status : ReqId → Int

/-- Macro QUEUE_REMOVE on a send request: unlink it from whichever of the
three queues it is on. -/
def queueRemove (r : ReqId) (s : UdpSendSt) : UdpSendSt :=
  { s with write_queue := s.write_queue.erase r,
           write_pending_queue := s.write_pending_queue.erase r,
           write_completed_queue := s.write_completed_queue.erase r }

/-- Function `uv__uring_udp_sendmsg` (lines 420-466): drain the pending
`write_queue`, writing one sendmsg SQE per request and moving each request
to the tail of `write_pending_queue` (in-flight).  The msghdr/address
construction has no effect visible to this model. -/
def sendBurst (r : Ring) (fd : Int) : List ReqId → Ring × List Sqe × List UdpEv
  | [] => (r, [], [])
  | q :: rest =>
    let (r1, sqe) := writeSendSqe r fd q
    let (r2, sqes, evs) := sendBurst r1 fd rest
    (r2, sqe :: sqes, .submitSend q sqe.asyncFlag :: evs)

/-- Function `uv__uring_udp_sendmsg`, state-level effect: every request moves
from `write_queue` to the tail of `write_pending_queue`. -/
def uv__uring_udp_sendmsg (r : Ring) (fd : Int) (s : UdpSendSt) :
    Ring × UdpSendSt × List Sqe :=
  let (r1, sqes, _) := sendBurst r fd s.write_queue
  (r1, { s with write_queue := [],
                write_pending_queue := s.write_pending_queue ++ s.write_queue },
   sqes)

/-- Function `uv__uring_udp_sendmsg_done` (lines 469-491): a transient
would-block / no-buffer-space completion requeues the request on
`write_queue` for resubmission; every other status is recorded in the
request and the request moves to `write_completed_queue`, after which
`uv__io_feed` wakes the handle's watcher. -/
def uv__uring_udp_sendmsg_done (s : UdpSendSt) (req : ReqId) (status : Int) :
    UdpSendSt × List UdpEv :=
  if status = UV_EAGAIN ∨ status = uv__err EWOULDBLOCK ∨ status = UV_ENOBUFS then
    let s1 := queueRemove req s
    ({ s1 with write_queue := s1.write_queue ++ [req] }, [])
  else
    let s1 := { s with status := fun x => if x = req then status else s.status x }
    let s2 := queueRemove req s1
    ({ s2 with write_completed_queue := s2.write_completed_queue ++ [req] },
     [.feed])

/-! ## Direct-datagram receive path (uv__uring_udp_recvmsg / _done). -/

/-- Receive-side state of a `uv_udp_t` handle.  `readPending` is the
UV_HANDLE_READ_PENDING bit; `closing` models `uv__is_closing(handle)` and
`ioActiveIn` models `uv__io_active(&handle->io_watcher, POLLIN)` (both live
in the generic handle layer outside this file and are read-only here). -/
structure UdpHandle where
  readPending : Bool
  closing : Bool
  ioActiveIn : Bool
deriving DecidableEq

/-- Environment of one receive attempt: whether the consumer's `alloc_cb`
yields a usable (non-null, non-empty) buffer, and whether `MSG_TRUNC` is
set on a successful receive. -/
structure RecvEnv where
  allocOk : Bool
  msgTrunc : Bool
deriving DecidableEq

/-- Receive-path state: the handle plus the ring it submits into. -/
structure RecvSt where
  h : UdpHandle
  ring : Ring
deriving DecidableEq

/-- Entry points of the mutually recursive receive pair. -/
inductive RecvCall where
  | start
  | done (status : Int)

/-- Functions `uv__uring_udp_recvmsg` (lines 494-533) and
`uv__uring_udp_recvmsg_done` (lines 536-569), transcribed as one
fuel-indexed function (the C recursion nests at most three calls:
done → recvmsg → done-with-ENOBUFS, so fuel 4 is never exhausted).
`start`: refuse if READ_PENDING is set; call `alloc_cb`; an empty buffer
synthesizes a UV_ENOBUFS completion; otherwise set READ_PENDING and write
the recvmsg SQE.  `done`: ignore completions on a closing handle; remap
UV_EBADF to UV_ECANCELED; clear READ_PENDING; report through `recv_cb`
(a would-block outcome as a zero-length, address-less delivery) and, when
the watcher is still interested and the handle not closing, immediately
restart the receive. -/
def recvStep : Nat → RecvEnv → RecvCall → RecvSt → RecvSt × List UdpEv
  | 0, _, _, s => (s, [])
  | fuel + 1, env, .start, s =>
    if s.h.readPending then (s, [])
    else if env.allocOk then
      let r1 := uv__io_uring_get_sqe s.ring
      let s1 : RecvSt := { h := { s.h with readPending := true }, ring := r1 }
      (s1, [.alloc, .submitRecv (decide (r1.sqReady > r1.syncLimit))])
    else
      let (s1, evs) := recvStep fuel env (.done UV_ENOBUFS) s
      (s1, .alloc :: evs)
  | fuel + 1, env, .done status, s =>
    if s.h.closing then (s, [])
    else
      let status1 := if status = UV_EBADF then UV_ECANCELED else status
      let s1 : RecvSt := { s with h := { s.h with readPending := false } }
      if status1 < 0 then
        if status1 = UV_EAGAIN ∨ status1 = uv__err EWOULDBLOCK then
          if s1.h.ioActiveIn ∧ ¬s1.h.closing then
            let (s2, evs) := recvStep fuel env .start s1
            (s2, [.clearReadPending, .recvCb 0 false 0] ++ evs)
          else (s1, [.clearReadPending, .recvCb 0 false 0])
        else (s1, [.clearReadPending, .recvCb status1 false 0])
      else
        let flags := if env.msgTrunc then UV_UDP_PARTIAL_FLAG else 0
        if s1.h.ioActiveIn ∧ ¬s1.h.closing then
          let (s2, evs) := recvStep fuel env .start s1
          (s2, [.clearReadPending, .recvCb status1 true flags] ++ evs)
        else (s1, [.clearReadPending, .recvCb status1 true flags])

/-- Function `uv__uring_udp_recvmsg` at its ample fuel bound. -/
def uv__uring_udp_recvmsg (env : RecvEnv) (s : RecvSt) : RecvSt × List UdpEv :=
  recvStep 4 env .start s

/-- Function `uv__uring_udp_recvmsg_done` at its ample fuel bound. -/
def uv__uring_udp_recvmsg_done (env : RecvEnv) (s : RecvSt) (status : Int) :
    RecvSt × List UdpEv :=
  recvStep 4 env (.done status) s

/-! ## Watchers and loop state. -/

/-- The `uv__io_t` fields read by this backend. -/
structure Watcher where
  fd : Int
  pevents : Nat
  events : Nat
  oneshot : Bool
deriving DecidableEq

/-- Loop state visible to `uv__uring_io_poll`: watcher count, the pending
registration queue (`loop->watcher_queue`), the fd-indexed watcher table
(`loop->watchers`), the watcher objects themselves, the identity of
`&loop->signal_io_watcher`, the monotonic `loop->time`, and the ring. -/
structure LoopSt where
  nfds : Nat
  watcherQueue : List WId
  slots : Int → Option WId
  wmap : WId → Watcher
  signalW : WId
  time : Nat
  ring : Ring

/-- Events visible to the caller of the drive loop. -/
inductive Ev where
  | sqeWrite (s : Sqe)
  | sendmsgDone (r : ReqId) (res : Int)
  | recvmsgDone (h : HandleId) (res : Int)
  | rearm (w : WId) (mask : Nat)
  | callback (w : WId) (events : Nat)
  | signalCb
deriving DecidableEq

/-- Modelled from the spec: `uv__io_start` (generic scheduler code, not part
of this file) re-queues the watcher on `loop->watcher_queue` so that its
poll interest is resubmitted; the spec's §4.3 treats this call as the
resubmission of the poll request that precedes callback delivery. -/
def ioStart (st : LoopSt) (wid : WId) (w : Watcher) : LoopSt :=
  { st with
    wmap := fun x => if x = wid then { w with events := w.pevents } else st.wmap x,
    watcherQueue := st.watcherQueue ++ [wid] }

/-- The 32-bit completion result masked down to the watcher's requested
interest plus error/hangup bits (line 337: `events &= w->pevents | POLLERR
| POLLHUP`, with `events` a `uint32_t` holding `cqe->res`). -/
def maskedEvents (w : Watcher) (res : Int) : Nat :=
  Nat.land (Int.toNat (res % 4294967296)) (w.pevents ||| POLLERR ||| POLLHUP)

/-- Lines 288-351, handling of one completion-queue entry during the drain:
returns the new loop state, the `nevents` increment, whether
`have_signals` was set, and the emitted events.  Zero and internal-timeout
tags are ignored; send/receive tags dispatch to the datagram completion
handlers; a watcher tag is skipped when the watcher's fd is -1 or its
watcher-table slot is empty, is rearmed first when not one-shot, and has
its callback run unless it is the designated signal watcher (whose
callback is deferred to the end of the drain). -/
def drainOne (st : LoopSt) (c : Cqe) : LoopSt × Nat × Bool × List Ev :=
  match c.userData with
  | .zero => (st, 0, false, [])
  | .timeoutSentinel => (st, 0, false, [])
  | .sendReq r => (st, 1, false, [.sendmsgDone r c.res])
  | .recvHandle h => (st, 1, false, [.recvmsgDone h c.res])
  | .watcher wid =>
    let w := st.wmap wid
    if w.fd = -1 ∨ st.slots w.fd = none then (st, 0, false, [])
    else
      let st1 := if w.oneshot then st else ioStart st wid w
      let tr1 : List Ev := if w.oneshot then [] else [.rearm wid w.pevents]
      let events := maskedEvents w c.res
      if events ≠ 0 then
        if wid = st.signalW then (st1, 1, true, tr1)
        else (st1, 1, false, tr1 ++ [.callback wid events])
      else (st1, 0, false, tr1)

/-- Lines 287-352: fold `drainOne` over every ready completion. -/
def drainBatch : LoopSt → List Cqe → LoopSt × Nat × Bool × List Ev
  | st, [] => (st, 0, false, [])
  | st, c :: rest =>
    let (st1, n1, s1, t1) := drainOne st c
    let (st2, n2, s2, t2) := drainBatch st1 rest
    (st2, n1 + n2, s1 || s2, t1 ++ t2)

/-! ## The drive loop (uv__uring_io_poll, lines 129-384). -/

/-- Reason a call to the drive loop handed control back. -/
inductive RetReason where
  | noWatchers
  | wokenEmpty
  | timedOut
  | budget
  | events
  | signal
  | zeroTimeout
  | fuelOut
deriving DecidableEq

/-- Mutable locals of the `for (;;)` drive loop. -/
structure PollSt where
  loopSt : LoopSt
  timeout : Int
  realTimeout : Int
  base : Nat
  nevents : Nat
  haveSignals : Bool
  userTimeout : Int
  resetTimeout : Bool

/-- Result of one pass of the drive loop: return to the caller or iterate. -/
inductive IterOut where
  | ret (r : RetReason) (s : PollSt) (tr : List Ev)
  | again (s : PollSt) (tr : List Ev)

/-- Lines 243-246, 268-271, 356-359: restore the caller's timeout after the
zero-length idle-time probe. -/
def restoreReset (s : PollSt) : PollSt :=
  if s.resetTimeout then { s with timeout := s.userTimeout, resetTimeout := false }
  else s

/-- Lines 376-383 (`update_timeout`): subtract the time elapsed since the
poll's base timestamp from the remaining budget; an exhausted budget
returns to the caller, otherwise the loop runs again with the corrected
timeout. -/
def updateTimeout (s : PollSt) (tr : List Ev) : IterOut :=
  let rt := s.realTimeout - ((s.loopSt.time : Int) - (s.base : Int))
  if rt ≤ 0 then .ret .budget { s with realTimeout := rt } tr
  else .again { s with realTimeout := rt, timeout := rt } tr

/-- Lines 286-383 after the wait: drain the ready completions, advance the
ring, restore a probed timeout, run a deferred signal callback (and return
immediately), and otherwise decide between returning and iterating. -/
def drainPhase (batch : List Cqe) (s : PollSt) : IterOut :=
  let (st1, nev, sig, tr) := drainBatch s.loopSt batch
  let s1 : PollSt := { s with loopSt := st1, nevents := s.nevents + nev,
                              haveSignals := s.haveSignals || sig }
  let s2 := restoreReset s1
  if s2.haveSignals then .ret .signal s2 (tr ++ [.signalCb])
  else if s2.nevents ≠ 0 then .ret .events s2 tr
  else if s2.timeout = 0 then .ret .zeroTimeout s2 tr
  else if s2.timeout = -1 then .again s2 tr
  else updateTimeout s2 tr

/-- Oracle describing what the kernel does in one pass of the drive loop:
`preReady` are completions already queued when the loop checks
`io_uring_cq_ready` (a non-empty list skips the wait), `waitR` the result
of the `io_uring_wait_cqes` retry loop after EINTR absorption (the C
asserts it is 0, -EAGAIN or -ETIME), `elapsed` how far `uv__update_time`
advances `loop->time` after the wait, and `postWait` the completions ready
after a wait that returned 0. -/
structure IterEnv where
  preReady : List Cqe
  waitR : Int
  elapsed : Nat
  postWait : List Cqe

/-- Lines 207-383, one pass of the `for (;;)` loop.  When nothing is ready
the loop waits; line 235 then re-arms `timeout` from `real_timeout`.  The
C compares the wait result against positive `EAGAIN` (line 241) while the
result ranges over {0, -EAGAIN, -ETIME}, so that branch is transcribed
but unreachable for well-formed wait results; a -EAGAIN result therefore
falls through the (empty) drain.  A -ETIME result restores a probed
timeout and either iterates (infinite timeout), returns (zero timeout) or
corrects the budget.  Otherwise the ready completions are drained. -/
def pollIter (e : IterEnv) (s : PollSt) : IterOut :=
  if e.preReady.isEmpty then
    let s1 : PollSt := { s with timeout := s.realTimeout }
    if e.waitR = EAGAIN then
      let s2 := restoreReset s1
      if s2.timeout = 0 then .ret .wokenEmpty s2 []
      else updateTimeout s2 []
    else
      let s2 : PollSt :=
        { s1 with loopSt := { s1.loopSt with time := s1.loopSt.time + e.elapsed } }
      if e.waitR = -ETIME then
        let s3 := restoreReset s2
        if s3.timeout = -1 then .again s3 []
        else if s3.timeout = 0 then .ret .timedOut s3 []
        else updateTimeout s3 []
      else drainPhase e.postWait s2
  else drainPhase e.preReady s

/-- The `for (;;)` loop, driven by a per-iteration oracle and bounded by
fuel (the C loop can spin forever on an infinite timeout). -/
def pollLoop : Nat → (Nat → IterEnv) → Nat → PollSt → PollSt × List Ev × RetReason
  | 0, _, _, s => (s, [], .fuelOut)
  | fuel + 1, env, k, s =>
    match pollIter (env k) s with
    | .ret r s1 tr => (s1, tr, r)
    | .again s1 tr =>
      let rest := pollLoop fuel env (k + 1) s1
      (rest.1, tr ++ rest.2.1, rest.2.2)

/-- Lines 157-176: the watcher-submission stage pops each newly registered
watcher, writes a tagged poll-add SQE for its requested mask, and records
that mask as armed (`w->events = w->pevents`). -/
def submitWatchers : LoopSt → List WId → LoopSt × List Sqe
  | st, [] => (st, [])
  | st, wid :: rest =>
    let w := st.wmap wid
    let (r1, sqe) := writePollAddSqe st.ring wid w.fd w.pevents
    let st1 : LoopSt :=
      { st with ring := r1,
                wmap := fun x => if x = wid then { w with events := w.pevents }
                                 else st.wmap x }
    let (st2, sqes) := submitWatchers st1 rest
    (st2, sqe :: sqes)

/-- Whole-loop environment: how long the submit syscall took (line 182
updates `loop->time` right after `uv__io_uring_submit`) plus the
per-iteration kernel oracle. -/
structure PollEnv where
  submitElapsed : Nat
  iters : Nat → IterEnv

/-- Lines 157-206: state of the drive loop's locals right before the
`for (;;)` loop: watcher queue drained and submitted, time updated,
`base = loop->time`, `real_timeout = timeout`, and the idle-time-metrics
decomposition of the timeout into a zero-length probe. -/
def ioPollInit (env : PollEnv) (metrics : Bool) (st : LoopSt) (timeout : Int) :
    PollSt :=
  let (st1, _) := submitWatchers { st with watcherQueue := [] } st.watcherQueue
  let st2 : LoopSt := { st1 with ring := uv__io_uring_submit st1.ring,
                                 time := st1.time + env.submitElapsed }
  { loopSt := st2,
    timeout := if metrics then 0 else timeout,
    realTimeout := timeout,
    base := st2.time,
    nevents := 0,
    haveSignals := false,
    userTimeout := if metrics then timeout else 0,
    resetTimeout := metrics }

/-- Function `uv__uring_io_poll` (lines 129-384): with no watched
descriptors return immediately; otherwise run the submission stage and
then the drive loop. -/
def uv__uring_io_poll (fuel : Nat) (env : PollEnv) (metrics : Bool)
    (st : LoopSt) (timeout : Int) : PollSt × List Ev × RetReason :=
  if st.nfds = 0 then
    ({ loopSt := st, timeout := timeout, realTimeout := timeout, base := st.time,
       nevents := 0, haveSignals := false, userTimeout := 0, resetTimeout := false },
     [], .noWatchers)
  else
    let sqes := (submitWatchers { st with watcherQueue := [] } st.watcherQueue).2
    let out := pollLoop fuel env.iters 0 (ioPollInit env metrics st timeout)
    (out.1, sqes.map Ev.sqeWrite ++ out.2.1, out.2.2)

/-! ## Analysis definitions used by the theorems. -/

/-- Events that deliver a completion outcome to a consumer callback. -/
def isDelivery : Ev → Bool
  | .callback _ _ => true
  | .signalCb => true
  | .sendmsgDone _ _ => true
  | .recvmsgDone _ _ => true
  | _ => false

/-- Completion for the designated signal watcher that the drain would
deliver: tagged with the signal watcher, its fd alive, its slot occupied,
and a non-empty masked event set. -/
def signalDeliv (st : LoopSt) (c : Cqe) : Prop :=
  c.userData = .watcher st.signalW
  ∧ ¬((st.wmap st.signalW).fd = -1 ∨ st.slots (st.wmap st.signalW).fd = none)
  ∧ maskedEvents (st.wmap st.signalW) c.res ≠ 0

/-- Completion other than the signal watcher's that the drain would
deliver (datagram completions always deliver; a watcher completion
delivers when alive with non-empty masked events). -/
def otherDeliv (st : LoopSt) (c : Cqe) : Prop :=
  match c.userData with
  | .sendReq _ => True
  | .recvHandle _ => True
  | .watcher wid =>
      wid ≠ st.signalW
      ∧ ¬((st.wmap wid).fd = -1 ∨ st.slots (st.wmap wid).fd = none)
      ∧ maskedEvents (st.wmap wid) c.res ≠ 0
  | _ => False

/-- Invariant of the drive loop relating the elapsed time, the remaining
budget and the pending wait bound to the caller's requested timeout T. -/
def PollInv (T : Int) (s : PollSt) : Prop :=
  s.base ≤ s.loopSt.time
  ∧ ((s.loopSt.time : Int) - (s.base : Int)) + s.realTimeout ≤ T
  ∧ 0 ≤ s.realTimeout
  ∧ 0 ≤ s.timeout
  ∧ (s.resetTimeout = true → s.timeout = 0 ∧ s.userTimeout = T ∧ s.realTimeout = T)
  ∧ (s.resetTimeout = false → s.timeout ≤ s.realTimeout)
  ∧ s.nevents = 0 ∧ s.haveSignals = false

/-- Well-formed kernel oracle along the actual run: each wait result is one
of the values the C asserts (0, -EAGAIN, -ETIME), and whenever the loop
actually blocks, the measured elapsed time does not exceed the wait bound
handed to the kernel (the idealization under which the spec's deadline
bound is stated). -/
def EnvOk (env : Nat → IterEnv) : Nat → Nat → PollSt → Prop
  | 0, _, _ => True
  | fuel + 1, k, s =>
    ((env k).waitR = 0 ∨ (env k).waitR = -EAGAIN ∨ (env k).waitR = -ETIME)
    ∧ ((env k).preReady = [] → ((env k).elapsed : Int) ≤ s.timeout)
    ∧ (match pollIter (env k) s with
       | .again s1 _ => EnvOk env fuel (k + 1) s1
       | .ret _ _ _ => True)

/-- Test for a receive-submission event. -/
def isSubmitRecv : UdpEv → Bool
  | .submitRecv _ => true
  | _ => false

/-- Number of receive SQEs submitted in a trace. -/
def countSubmits (l : List UdpEv) : Nat := (l.filter isSubmitRecv).length

/-- External operations driving the receive path: a consumer's
start-receive call, or the drain handing a receive completion back. -/
inductive RecvOp where
  | start (env : RecvEnv)
  | complete (env : RecvEnv) (status : Int)

/-- Run of the receive path under an arbitrary interleaving of start calls
and completions; alongside the handle state it counts the receives
currently outstanding in the ring (submissions minus consumed
completions, the latter clamped at zero). -/
def recvRun : List RecvOp → RecvSt × Nat → RecvSt × Nat
  | [], p => p
  | .start env :: rest, (s, out) =>
    let r := recvStep 4 env .start s
    recvRun rest (r.1, out + countSubmits r.2)
  | .complete env status :: rest, (s, out) =>
    let r := recvStep 4 env (.done status) s
    recvRun rest (r.1, out - 1 + countSubmits r.2)

/-- At most one receive outstanding, and none unless READ_PENDING is set. -/
def RecvInv (p : RecvSt × Nat) : Prop :=
  p.2 ≤ if p.1.h.readPending then 1 else 0

/-! ## Concrete states used by witnesses and counterexamples. -/

/-- Ring holding 50 unsubmitted entries against the default limit of 40. -/
def wRingHot : Ring := { sqReady := 50, cap := 4096, syncLimit := 40 }

/-- Ring with an empty submission queue. -/
def wRingCold : Ring := { sqReady := 0, cap := 4096, syncLimit := 40 }

/-- Watcher table mapping descriptor 3 to watcher 7. -/
def wSlots3 : Int → Option WId := fun i => if i = 3 then some 7 else none

/-- Loop state whose descriptor 5 slot holds watcher 1 while watcher 0
(also recorded with fd 5) is the stale identity carried by an in-flight
completion: the closed-then-reused descriptor scenario. -/
def wStReplaced : LoopSt :=
  { nfds := 1, watcherQueue := [],
    slots := fun i => if i = 5 then some 1 else none,
    wmap := fun _ => { fd := 5, pevents := POLLIN, events := POLLIN, oneshot := false },
    signalW := 99, time := 0, ring := wRingCold }

/-- Loop state with the signal watcher (id 9) on fd 6 and an ordinary
watcher (id 0) on fd 5, both live and interested in POLLIN. -/
def wStSignal : LoopSt :=
  { nfds := 1, watcherQueue := [],
    slots := fun i => if i = 5 ∨ i = 6 then some 0 else none,
    wmap := fun w => if w = 9 then { fd := 6, pevents := POLLIN, events := POLLIN, oneshot := false }
                     else { fd := 5, pevents := POLLIN, events := POLLIN, oneshot := false },
    signalW := 9, time := 0, ring := wRingCold }

/-- Drive-loop locals with a 10 ms budget and no metrics probe. -/
def wPoll10 : PollSt :=
  { loopSt := wStSignal, timeout := 10, realTimeout := 10, base := 0,
    nevents := 0, haveSignals := false, userTimeout := 0, resetTimeout := false }

/-- Drive-loop locals used by the signal-ordering witness. -/
def wPoll0 : PollSt :=
  { loopSt := wStSignal, timeout := 0, realTimeout := 0, base := 0,
    nevents := 0, haveSignals := false, userTimeout := 0, resetTimeout := false }

/-- Iteration oracle: nothing ready, the wait times out after 6 ms. -/
def wIterEtime : IterEnv := { preReady := [], waitR := -ETIME, elapsed := 6, postWait := [] }

/-- Whole-loop oracle: every pass times out after 10 ms. -/
def wEnvT : PollEnv :=
  { submitElapsed := 0,
    iters := fun _ => { preReady := [], waitR := -ETIME, elapsed := 10, postWait := [] } }

/-- UDP handle with a receive pending, not closing, still interested. -/
def wUdpPending : RecvSt := { h := { readPending := true, closing := false, ioActiveIn := true }, ring := wRingCold }

/-- UDP handle with no receive pending. -/
def wUdpIdle : RecvSt := { h := { readPending := false, closing := false, ioActiveIn := true }, ring := wRingCold }

/-- Receive environment: allocation succeeds, datagram not truncated. -/
def wRecvEnv : RecvEnv := { allocOk := true, msgTrunc := false }

/-- Send-queue state with request 5 in flight. -/
def wSend5 : UdpSendSt :=
  { write_queue := [], write_pending_queue := [5], write_completed_queue := [],
    status := fun _ => 0 }

/-- Interleaving exercised by the at-most-one-receive witness. -/
def wRecvOps : List RecvOp :=
  [.start wRecvEnv, .start wRecvEnv, .complete wRecvEnv 100, .start wRecvEnv]

/-! ## Theorems. -/

/-- C10: with no watched descriptors (`loop->nfds == 0`, line 150) the poll
entry point returns immediately: no SQE is written, no wait happens
regardless of the requested timeout (including -1), no callback runs, and
the loop and ring state are returned unchanged. -/
theorem c10_no_watchers_noop (fuel : Nat) (env : PollEnv) (metrics : Bool)
    (st : LoopSt) (timeout : Int) (h : st.nfds = 0) :
    uv__uring_io_poll fuel env metrics st timeout =
      ({ loopSt := st, timeout := timeout, realTimeout := timeout,
         base := st.time, nevents := 0, haveSignals := false,
         userTimeout := 0, resetTimeout := false }, [], .noWatchers) := by
  simp [uv__uring_io_poll, h]

/-- C10 witness: the no-watcher return at a concrete loop state, fuel 5,
an arbitrary oracle and an infinite timeout. -/
theorem c10_no_watchers_noop_witness :
    uv__uring_io_poll 5 wEnvT true { wStSignal with nfds := 0 } (-1) =
      ({ loopSt := { wStSignal with nfds := 0 }, timeout := -1, realTimeout := -1,
         base := wStSignal.time, nevents := 0, haveSignals := false,
         userTimeout := 0, resetTimeout := false }, [], .noWatchers) :=
  c10_no_watchers_noop 5 wEnvT true { wStSignal with nfds := 0 } (-1) rfl

/-- C7: invalidating a descriptor with an outstanding poll request submits
a cancellation that targets that request's watcher identity and carries
the zero sentinel as its own tag, and the drain silently ignores every
completion tagged zero or with the internal-timeout sentinel (no event,
no count, no state change). -/
theorem c7_invalidate_cancel_and_ignore :
    (∀ (r : Ring) (slots : Int → Option WId) (fd : Int) (w : WId),
        slots fd = some w →
        (uv__uring_platform_invalidate_fd r slots fd).2 =
          [{ op := .pollRemove w, userData := .zero, asyncFlag := false }])
    ∧ (∀ (st : LoopSt) (c : Cqe),
        c.userData = .zero ∨ c.userData = .timeoutSentinel →
        drainOne st c = (st, 0, false, [])) := by
  constructor
  · intro r slots fd w h
    simp [uv__uring_platform_invalidate_fd, h]
  · rintro st c (h | h) <;> simp [drainOne, h]

/-- C7 witness: the cancellation SQE for slot 3 → watcher 7 and the
ignored zero-tagged completion, at concrete inputs. -/
theorem c7_invalidate_cancel_and_ignore_witness :
    (uv__uring_platform_invalidate_fd wRingCold wSlots3 3).2 =
      [{ op := .pollRemove 7, userData := .zero, asyncFlag := false }]
    ∧ drainOne wStSignal { userData := .zero, res := 1 } = (wStSignal, 0, false, []) :=
  ⟨c7_invalidate_cancel_and_ignore.1 wRingCold wSlots3 3 7 (by norm_num [wSlots3]),
   c7_invalidate_cancel_and_ignore.2 wStSignal { userData := .zero, res := 1 } (Or.inl rfl)⟩

/-- C2 counterexample: the cancellation SQE written by descriptor
invalidation is not flagged IOSQE_ASYNC even though the ring occupancy at
write time (51 entries after the slot is taken) exceeds the threshold of
40, contradicting the claim for the poll-cancellation kind. -/
theorem c2_cancellation_unflagged_cex :
    (uv__io_uring_get_sqe wRingHot).sqReady = 51
    ∧ wRingHot.syncLimit = 40
    ∧ (uv__uring_platform_invalidate_fd wRingHot wSlots3 3).2.map Sqe.asyncFlag = [false] := by
  refine ⟨by decide, by decide, ?_⟩
  simp [uv__uring_platform_invalidate_fd, wSlots3]

/-- C2 amended: the poll-add, datagram-send and datagram-receive SQEs are
flagged IOSQE_ASYNC exactly when the ring occupancy at write time exceeds
`sync_limit`; the poll-cancellation SQE written on invalidation is never
flagged. -/
theorem c2_async_flag_policy :
    (∀ (r : Ring) (w : WId) (fd : Int) (pe : Nat),
        (writePollAddSqe r w fd pe).2.asyncFlag =
          decide ((uv__io_uring_get_sqe r).sqReady > r.syncLimit))
    ∧ (∀ (r : Ring) (fd : Int) (req : ReqId),
        (writeSendSqe r fd req).2.asyncFlag =
          decide ((uv__io_uring_get_sqe r).sqReady > r.syncLimit))
    ∧ (∀ (env : RecvEnv) (s : RecvSt),
        s.h.readPending = false → env.allocOk = true →
        (uv__uring_udp_recvmsg env s).2 =
          [.alloc, .submitRecv (decide ((uv__io_uring_get_sqe s.ring).sqReady > s.ring.syncLimit))])
    ∧ (∀ (r : Ring) (slots : Int → Option WId) (fd : Int),
        ∀ sqe ∈ (uv__uring_platform_invalidate_fd r slots fd).2, sqe.asyncFlag = false) := by
  refine ⟨?_, ?_, ?_, ?_⟩
  · intro r w fd pe
    simp [writePollAddSqe, uv__io_uring_get_sqe]
    split <;> simp
  · intro r fd req
    simp [writeSendSqe, uv__io_uring_get_sqe]
    split <;> simp
  · intro env s hp ha
    simp [uv__uring_udp_recvmsg, recvStep, hp, ha, uv__io_uring_get_sqe]
    split <;> simp
  · intro r slots fd sqe hm
    unfold uv__uring_platform_invalidate_fd at hm
    rcases h : slots fd with _ | w <;> rw [h] at hm <;> simp at hm
    rw [hm]

/-- C2 amended witness: flag set on a hot ring for poll-add, not set on a
cold ring for send, the receive submission event on a cold ring, and the
unflagged cancellation. -/
theorem c2_async_flag_policy_witness :
    (writePollAddSqe wRingHot 1 3 POLLIN).2.asyncFlag = true
    ∧ (writeSendSqe wRingCold 3 5).2.asyncFlag = false
    ∧ (uv__uring_udp_recvmsg wRecvEnv wUdpIdle).2 = [.alloc, .submitRecv false]
    ∧ ∀ sqe ∈ (uv__uring_platform_invalidate_fd wRingHot wSlots3 3).2, sqe.asyncFlag = false := by
  refine ⟨?_, ?_, ?_, c2_async_flag_policy.2.2.2 wRingHot wSlots3 3⟩
  · rw [c2_async_flag_policy.1 wRingHot 1 3 POLLIN]; decide
  · rw [c2_async_flag_policy.2.1 wRingCold 3 5]; decide
  · rw [c2_async_flag_policy.2.2.1 wRecvEnv wUdpIdle rfl rfl]; decide

/-- C8: a datagram-send completion with a transient resource-exhaustion
status (UV_EAGAIN, UV__ERR(EWOULDBLOCK) or UV_ENOBUFS) moves the request
back to the tail of the pending queue with its stored status untouched
and wakes nobody; every other status — success or failure — is recorded
in the request, moves it to the tail of the completed queue, and feeds
the owning descriptor's watcher so the result is delivered. -/
theorem c8_send_completion_routing (s : UdpSendSt) (req : ReqId) (status : Int) :
    (status = UV_EAGAIN ∨ status = uv__err EWOULDBLOCK ∨ status = UV_ENOBUFS →
      uv__uring_udp_sendmsg_done s req status =
        ({ write_queue := s.write_queue.erase req ++ [req],
           write_pending_queue := s.write_pending_queue.erase req,
           write_completed_queue := s.write_completed_queue.erase req,
           status := s.status }, []))
    ∧ (¬(status = UV_EAGAIN ∨ status = uv__err EWOULDBLOCK ∨ status = UV_ENOBUFS) →
      uv__uring_udp_sendmsg_done s req status =
        ({ write_queue := s.write_queue.erase req,
           write_pending_queue := s.write_pending_queue.erase req,
           write_completed_queue := s.write_completed_queue.erase req ++ [req],
           status := fun x => if x = req then status else s.status x }, [.feed])) := by
  constructor
  · intro h
    simp [uv__uring_udp_sendmsg_done, h, queueRemove]
  · intro h
    simp [uv__uring_udp_sendmsg_done, h, queueRemove]

/-- C8 witness: a UV_EAGAIN completion requeues in-flight request 5; a
success completion lands it on the completed queue with status recorded
and a feed event. -/
theorem c8_send_completion_routing_witness :
    uv__uring_udp_sendmsg_done wSend5 5 UV_EAGAIN =
      ({ write_queue := [5], write_pending_queue := [], write_completed_queue := [],
         status := wSend5.status }, [])
    ∧ uv__uring_udp_sendmsg_done wSend5 5 0 =
      ({ write_queue := [], write_pending_queue := [], write_completed_queue := [5],
         status := fun x => if x = 5 then 0 else wSend5.status x }, [.feed]) := by
  constructor
  · have h := (c8_send_completion_routing wSend5 5 UV_EAGAIN).1 (Or.inl rfl)
    rw [h]; rfl
  · have h := (c8_send_completion_routing wSend5 5 0).2 (by norm_num [UV_EAGAIN, UV_ENOBUFS, uv__err, EWOULDBLOCK, EAGAIN, ENOBUFS])
    rw [h]; rfl

/-- C5 counterexample: the dispatch-skip test (line 319) only checks
`w->fd == -1 || loop->watchers[w->fd] == NULL`.  In `wStReplaced` the
descriptor-5 slot has been *replaced* — it holds watcher 1, not the stale
watcher 0 named by the completion — yet the completion for watcher 0 is
still dispatched (rearm plus callback), contradicting the claim that a
replaced descriptor skips dispatch entirely. -/
theorem c5_replaced_slot_still_dispatches_cex :
    wStReplaced.slots ((wStReplaced.wmap 0).fd) = some 1
    ∧ (1 : WId) ≠ 0
    ∧ (drainOne wStReplaced { userData := .watcher 0, res := 1 }).2.2.2 =
        [.rearm 0 POLLIN, .callback 0 POLLIN] := by
  refine ⟨by norm_num [wStReplaced], by decide, ?_⟩
  decide

/-- C5 amended: dispatch is skipped exactly when the watcher's fd is -1 or
its watcher-table slot is empty (a slot merely replaced by a different
watcher does not cause a skip); when a non-one-shot watcher is
dispatched, its armed mask is rebuilt to the requested mask and the
resubmission of its poll interest is the first emitted action, preceding
any callback. -/
theorem c5_rearm_precedes_callback (st : LoopSt) (c : Cqe) (wid : WId)
    (hc : c.userData = .watcher wid) :
    (((st.wmap wid).fd = -1 ∨ st.slots (st.wmap wid).fd = none) →
        drainOne st c = (st, 0, false, []))
    ∧ (¬((st.wmap wid).fd = -1 ∨ st.slots (st.wmap wid).fd = none) →
        (st.wmap wid).oneshot = false →
        ∃ t, (drainOne st c).2.2.2 = .rearm wid (st.wmap wid).pevents :: t
          ∧ (drainOne st c).1.wmap wid =
              { st.wmap wid with events := (st.wmap wid).pevents }
          ∧ (drainOne st c).1.watcherQueue = st.watcherQueue ++ [wid]) := by
  constructor
  · intro h
    simp [drainOne, hc, h]
  · intro h hone
    simp only [drainOne, hc, h, if_false, hone, ioStart]
    split
    · split <;> exact ⟨_, rfl, by simp, rfl⟩
    · exact ⟨_, rfl, by simp, rfl⟩

/-- C5 witness: a live non-one-shot watcher (id 0 on fd 5 in `wStSignal`)
whose completion yields the rearm action strictly before its callback. -/
theorem c5_rearm_precedes_callback_witness :
    ∃ t, (drainOne wStSignal { userData := .watcher 0, res := 1 }).2.2.2 =
        .rearm 0 (wStSignal.wmap 0).pevents :: t
      ∧ (drainOne wStSignal { userData := .watcher 0, res := 1 }).1.wmap 0 =
          { wStSignal.wmap 0 with events := (wStSignal.wmap 0).pevents }
      ∧ (drainOne wStSignal { userData := .watcher 0, res := 1 }).1.watcherQueue =
          wStSignal.watcherQueue ++ [0] :=
  (c5_rearm_precedes_callback wStSignal { userData := .watcher 0, res := 1 } 0 rfl).2
    (by simp [wStSignal]) (by simp [wStSignal])

/-- C3: a receive completion on a handle that is not closing first clears
the READ_PENDING flag and then reports the outcome through `recv_cb`, and
a UV_EBADF completion status is reported as UV_ECANCELED (with no address
and no resubmission). -/
theorem c3_recv_done_clears_then_reports (env : RecvEnv) (s : RecvSt) (status : Int)
    (h : s.h.closing = false) :
    (∃ st a f rest, (uv__uring_udp_recvmsg_done env s status).2 =
        .clearReadPending :: .recvCb st a f :: rest)
    ∧ (status = UV_EBADF →
        (uv__uring_udp_recvmsg_done env s status).2 =
          [.clearReadPending, .recvCb UV_ECANCELED false 0]) := by
  constructor
  · unfold uv__uring_udp_recvmsg_done recvStep
    simp only [h, Bool.false_eq_true, if_false]
    split_ifs <;> exact ⟨_, _, _, _, rfl⟩
  · intro hb
    subst hb
    unfold uv__uring_udp_recvmsg_done recvStep
    simp [h, UV_EBADF, UV_ECANCELED, UV_EAGAIN, uv__err, EWOULDBLOCK, EBADF,
          ECANCELED, EAGAIN]

/-- C3 witness: a UV_EBADF completion on a live pending handle is reported
as UV_ECANCELED right after the flag clear. -/
theorem c3_recv_done_clears_then_reports_witness :
    (uv__uring_udp_recvmsg_done wRecvEnv wUdpPending UV_EBADF).2 =
      [.clearReadPending, .recvCb UV_ECANCELED false 0] :=
  (c3_recv_done_clears_then_reports wRecvEnv wUdpPending UV_EBADF rfl).2 rfl

/-- Submission count distributes over trace concatenation. -/
theorem countSubmits_append (a b : List UdpEv) :
    countSubmits (a ++ b) = countSubmits a + countSubmits b := by
  simp [countSubmits, List.filter_append]

/-- A start-receive on a handle with READ_PENDING set is a no-op. -/
theorem recvStep_start_pending (n : Nat) (env : RecvEnv) (s : RecvSt)
    (hp : s.h.readPending = true) : recvStep (n + 1) env .start s = (s, []) := by
  simp [recvStep, hp]

/-- A completion on a closing handle is dropped without any effect. -/
theorem recvStep_done_closing (n : Nat) (env : RecvEnv) (s : RecvSt) (status : Int)
    (hc : s.h.closing = true) : recvStep (n + 1) env (.done status) s = (s, []) := by
  simp [recvStep, hc]

/-- A start-receive on an idle handle submits exactly one receive when the
allocator succeeds (leaving READ_PENDING set) and none otherwise (leaving
READ_PENDING clear). -/
theorem recvStep_start_count (n : Nat) (env : RecvEnv) (s : RecvSt)
    (hp : s.h.readPending = false) :
    countSubmits (recvStep (n + 2) env .start s).2 =
      (if (recvStep (n + 2) env .start s).1.h.readPending then 1 else 0) := by
  rcases ha : env.allocOk with _ | _
  · rcases hc : s.h.closing with _ | _
    · simp [recvStep, hp, ha, hc, countSubmits, isSubmitRecv,
            UV_ENOBUFS, UV_EBADF, UV_EAGAIN, uv__err, EWOULDBLOCK, ENOBUFS,
            EBADF, EAGAIN]
    · simp [recvStep, hp, ha, hc, countSubmits, isSubmitRecv]
  · simp [recvStep, hp, ha, countSubmits, isSubmitRecv]

/-- A completion on a live handle leaves exactly one receive submitted iff
READ_PENDING is set afterwards. -/
theorem recvStep_done_count (n : Nat) (env : RecvEnv) (s : RecvSt) (status : Int)
    (hc : s.h.closing = false) :
    countSubmits (recvStep (n + 3) env (.done status) s).2 =
      (if (recvStep (n + 3) env (.done status) s).1.h.readPending then 1 else 0) := by
  rcases hio : s.h.ioActiveIn with _ | _
  · rw [recvStep]
    simp only [hc, hio]
    split_ifs <;> simp_all [countSubmits, isSubmitRecv]
  · have hcount := recvStep_start_count n env ⟨⟨false, false, true⟩, s.ring⟩ rfl
    rw [recvStep]
    simp only [hc, hio]
    split_ifs <;>
      simp_all [countSubmits, isSubmitRecv]

/-- One step of `recvRun` preserves the at-most-one-outstanding invariant. -/
theorem recvRun_step_inv (op : RecvOp) (s : RecvSt) (out : Nat)
    (h : RecvInv (s, out)) :
    RecvInv (match op with
      | .start env =>
        ((recvStep 4 env .start s).1, out + countSubmits (recvStep 4 env .start s).2)
      | .complete env status =>
        ((recvStep 4 env (.done status) s).1,
          out - 1 + countSubmits (recvStep 4 env (.done status) s).2)) := by
  unfold RecvInv at h ⊢
  rcases op with env | ⟨env, status⟩ <;> dsimp only
  · rcases hp : s.h.readPending with _ | _
    · have hc := recvStep_start_count 2 env s hp
      norm_num at hc
      simp only [hp, Bool.false_eq_true, if_false, Nat.le_zero] at h
      rw [hc, h]
      omega
    · have hs := recvStep_start_pending 3 env s hp
      norm_num at hs
      rw [hs]
      simpa [countSubmits, hp] using h
  · rcases hcl : s.h.closing with _ | _
    · have hc := recvStep_done_count 1 env s status hcl
      norm_num at hc
      have hb : out ≤ 1 := le_trans h (by split <;> omega)
      rw [hc]
      omega
    · have hs := recvStep_done_closing 3 env s status hcl
      norm_num at hs
      rw [hs]
      rcases hp : s.h.readPending with _ | _ <;>
        simp_all [countSubmits, isSubmitRecv]

/-- C9: at most one receive is outstanding per datagram handle: a
start-receive while READ_PENDING is set is a no-op (no allocation, no
submission, no state change), and along every interleaving of start calls
and completions from an invariant-satisfying state the number of
outstanding receives never exceeds one. -/
theorem c9_at_most_one_receive :
    (∀ (env : RecvEnv) (s : RecvSt), s.h.readPending = true →
        uv__uring_udp_recvmsg env s = (s, []))
    ∧ (∀ (ops : List RecvOp) (p : RecvSt × Nat), RecvInv p →
        RecvInv (recvRun ops p) ∧ (recvRun ops p).2 ≤ 1) := by
  constructor
  · intro env s hp
    exact recvStep_start_pending 3 env s hp
  · intro ops
    induction ops with
    | nil =>
      intro p h
      refine ⟨h, le_trans h ?_⟩
      split <;> omega
    | cons op rest ih =>
      intro p h
      obtain ⟨s, out⟩ := p
      have hstep := recvRun_step_inv op s out h
      rcases op with env | ⟨env, status⟩
      · exact ih _ hstep
      · exact ih _ hstep

/-- C9 witness: starting a receive while one is pending changes nothing,
and a concrete interleaving (start, redundant start, completion, restart)
keeps the outstanding count at one. -/
theorem c9_at_most_one_receive_witness :
    uv__uring_udp_recvmsg wRecvEnv wUdpPending = (wUdpPending, [])
    ∧ (recvRun wRecvOps (wUdpIdle, 0)).2 ≤ 1 :=
  ⟨c9_at_most_one_receive.1 wRecvEnv wUdpPending rfl,
   (c9_at_most_one_receive.2 wRecvOps (wUdpIdle, 0) (by simp [RecvInv, wUdpIdle])).2⟩

/-- Handling one completion never changes the watcher table, the signal
watcher's identity, any watcher's fd, interest mask or one-shot flag, or
the loop clock (only armed masks and the resubmission queue change). -/
theorem drainOne_preserves (st : LoopSt) (c : Cqe) :
    (drainOne st c).1.slots = st.slots
    ∧ (drainOne st c).1.signalW = st.signalW
    ∧ (drainOne st c).1.time = st.time
    ∧ ∀ wid, ((drainOne st c).1.wmap wid).fd = (st.wmap wid).fd
        ∧ ((drainOne st c).1.wmap wid).pevents = (st.wmap wid).pevents
        ∧ ((drainOne st c).1.wmap wid).oneshot = (st.wmap wid).oneshot := by
  rcases c with ⟨tag, res⟩
  rcases tag with _ | _ | r | hh | wid
  · simp [drainOne]
  · simp [drainOne]
  · simp [drainOne]
  · simp [drainOne]
  · simp only [drainOne, ioStart]
    split_ifs <;>
      refine ⟨rfl, rfl, rfl, fun x => ?_⟩ <;>
      first
        | exact ⟨rfl, rfl, rfl⟩
        | (by_cases hx : x = wid <;> simp [hx])

/-- Draining a batch preserves the same watcher-identifying state. -/
theorem drainBatch_preserves (batch : List Cqe) : ∀ (st : LoopSt),
    (drainBatch st batch).1.slots = st.slots
    ∧ (drainBatch st batch).1.signalW = st.signalW
    ∧ (drainBatch st batch).1.time = st.time
    ∧ ∀ wid, ((drainBatch st batch).1.wmap wid).fd = (st.wmap wid).fd
        ∧ ((drainBatch st batch).1.wmap wid).pevents = (st.wmap wid).pevents
        ∧ ((drainBatch st batch).1.wmap wid).oneshot = (st.wmap wid).oneshot := by
  induction batch with
  | nil => intro st; exact ⟨rfl, rfl, rfl, fun _ => ⟨rfl, rfl, rfl⟩⟩
  | cons c rest ih =>
    intro st
    obtain ⟨h1, h2, h3, h4⟩ := drainOne_preserves st c
    obtain ⟨g1, g2, g3, g4⟩ := ih (drainOne st c).1
    refine ⟨?_, ?_, ?_, fun wid => ?_⟩
    · rw [drainBatch]; dsimp only; rw [g1, h1]
    · rw [drainBatch]; dsimp only; rw [g2, h2]
    · rw [drainBatch]; dsimp only; rw [g3, h3]
    · obtain ⟨ga, gb, gc⟩ := g4 wid
      obtain ⟨ha, hb, hc⟩ := h4 wid
      rw [drainBatch]; dsimp only
      exact ⟨ga.trans ha, gb.trans hb, gc.trans hc⟩

/-- Masked events depend only on the watcher's interest mask. -/
theorem maskedEvents_congr (w w' : Watcher) (res : Int)
    (h : w.pevents = w'.pevents) : maskedEvents w res = maskedEvents w' res := by
  simp [maskedEvents, h]

/-- A deliverable signal-watcher completion sets `have_signals`. -/
theorem drainOne_signal (st : LoopSt) (c : Cqe) (h : signalDeliv st c) :
    (drainOne st c).2.2.1 = true := by
  obtain ⟨h1, h2, h3⟩ := h
  rcases c with ⟨tag, res⟩
  cases h1
  simp [drainOne, h2, h3]

/-- The per-completion handler never emits the deferred signal callback. -/
theorem drainOne_no_signalCb (st : LoopSt) (c : Cqe) :
    Ev.signalCb ∉ (drainOne st c).2.2.2 := by
  rcases c with ⟨tag, res⟩
  rcases tag with _ | _ | r | hh | wid <;> simp only [drainOne] <;> try simp
  split_ifs <;> simp

/-- A batch containing a deliverable signal-watcher completion leaves the
drain with `have_signals` set. -/
theorem drainBatch_signal (batch : List Cqe) : ∀ (st : LoopSt) (c : Cqe),
    c ∈ batch → signalDeliv st c → (drainBatch st batch).2.2.1 = true := by
  induction batch with
  | nil => intro st c h; exact absurd h (List.not_mem_nil c)
  | cons c0 rest ih =>
    intro st c hm hd
    rw [drainBatch]; dsimp only
    rcases List.mem_cons.mp hm with he | ht
    · subst he
      rw [drainOne_signal st c hd]
      simp
    · obtain ⟨h1, h2, h3, h4⟩ := drainOne_preserves st c0
      have hd' : signalDeliv (drainOne st c0).1 c := by
        obtain ⟨d1, d2, d3⟩ := hd
        obtain ⟨ha, hb, _⟩ := h4 st.signalW
        refine ⟨?_, ?_, ?_⟩
        · rw [h2]; exact d1
        · rw [h2, h1, ha]; exact d2
        · rw [h2, maskedEvents_congr ((drainOne st c0).1.wmap st.signalW)
                (st.wmap st.signalW) c.res hb]
          exact d3
      rw [ih (drainOne st c0).1 c ht hd']
      simp

/-- The drain of a batch never emits the deferred signal callback. -/
theorem drainBatch_no_signalCb (batch : List Cqe) : ∀ (st : LoopSt),
    Ev.signalCb ∉ (drainBatch st batch).2.2.2 := by
  induction batch with
  | nil => intro st; simp [drainBatch]
  | cons c rest ih =>
    intro st
    rw [drainBatch]; dsimp only
    rw [List.mem_append]
    rintro (h | h)
    · exact drainOne_no_signalCb st c h
    · exact ih (drainOne st c).1 h

/-- A deliverable non-signal completion emits a delivery event. -/
theorem drainOne_other (st : LoopSt) (c : Cqe) (h : otherDeliv st c) :
    ∃ ev ∈ (drainOne st c).2.2.2, isDelivery ev = true := by
  rcases c with ⟨tag, res⟩
  rcases tag with _ | _ | r | hh | wid
  · exact absurd h (by simp [otherDeliv])
  · exact absurd h (by simp [otherDeliv])
  · exact ⟨.sendmsgDone r res, by simp [drainOne], rfl⟩
  · exact ⟨.recvmsgDone hh res, by simp [drainOne], rfl⟩
  · obtain ⟨h1, h2, h3⟩ := h
    refine ⟨.callback wid (maskedEvents (st.wmap wid) res), ?_, rfl⟩
    simp [drainOne, h1, h2, h3]

/-- A batch containing a deliverable non-signal completion emits a delivery
event somewhere in the drained trace. -/
theorem drainBatch_other (batch : List Cqe) : ∀ (st : LoopSt) (c : Cqe),
    c ∈ batch → otherDeliv st c →
    ∃ ev ∈ (drainBatch st batch).2.2.2, isDelivery ev = true := by
  induction batch with
  | nil => intro st c h; exact absurd h (List.not_mem_nil c)
  | cons c0 rest ih =>
    intro st c hm hd
    rw [drainBatch]; dsimp only
    rcases List.mem_cons.mp hm with he | ht
    · subst he
      obtain ⟨ev, hev, hdel⟩ := drainOne_other st c hd
      exact ⟨ev, List.mem_append_left _ hev, hdel⟩
    · obtain ⟨h1, h2, h3, h4⟩ := drainOne_preserves st c0
      have hd' : otherDeliv (drainOne st c0).1 c := by
        rcases hc : c.userData with _ | _ | r | hh | wid <;>
          rw [otherDeliv] at hd ⊢ <;> rw [hc] at hd ⊢
        · exact hd
        · exact hd
        · exact trivial
        · exact trivial
        · obtain ⟨d1, d2, d3⟩ := hd
          obtain ⟨ha, hb, _⟩ := h4 wid
          refine ⟨?_, ?_, ?_⟩
          · rw [h2]; exact d1
          · rw [h1, ha]; exact d2
          · rw [maskedEvents_congr ((drainOne st c0).1.wmap wid)
                  (st.wmap wid) c.res hb]
            exact d3
      obtain ⟨ev, hev, hdel⟩ := ih (drainOne st c0).1 c ht hd'
      exact ⟨ev, List.mem_append_right _ hev, hdel⟩

/-- Restoring a probed timeout touches only the timeout bookkeeping. -/
theorem restoreReset_fields (s : PollSt) :
    (restoreReset s).loopSt = s.loopSt ∧ (restoreReset s).nevents = s.nevents
    ∧ (restoreReset s).haveSignals = s.haveSignals
    ∧ (restoreReset s).realTimeout = s.realTimeout
    ∧ (restoreReset s).base = s.base := by
  unfold restoreReset
  split_ifs <;> exact ⟨rfl, rfl, rfl, rfl, rfl⟩

/-- C4: whenever a drained batch contains a deliverable completion of the
designated signal watcher together with at least one other deliverable
completion, the drain dispatches all other events first, invokes the
signal callback as the last event, and the poll entry point returns to the
caller immediately afterwards. -/
theorem c4_signal_callback_last (s : PollSt) (batch : List Cqe)
    (hs : ∃ c ∈ batch, signalDeliv s.loopSt c)
    (ho : ∃ c ∈ batch, otherDeliv s.loopSt c) :
    ∃ s' tr, drainPhase batch s = .ret .signal s' (tr ++ [.signalCb])
      ∧ Ev.signalCb ∉ tr
      ∧ ∃ ev ∈ tr, isDelivery ev = true := by
  obtain ⟨c, hc, hcd⟩ := hs
  obtain ⟨c', hc', hcd'⟩ := ho
  have hsig := drainBatch_signal batch s.loopSt c hc hcd
  have hns := drainBatch_no_signalCb batch s.loopSt
  have hoth := drainBatch_other batch s.loopSt c' hc' hcd'
  unfold drainPhase
  set B := drainBatch s.loopSt batch with hB
  obtain ⟨st1, nev, sig, tr⟩ := B
  dsimp only
  simp only at hsig hns hoth
  have hhs :
      (restoreReset
        { s with
          loopSt := st1
          nevents := s.nevents + nev
          haveSignals := s.haveSignals || sig }).haveSignals = true := by
    rw [(restoreReset_fields _).2.2.1]
    simp [hsig]
  rw [if_pos hhs]
  exact ⟨_, tr, rfl, hns, hoth⟩

/-- C4 witness: a batch holding a POLLIN completion for the signal watcher
(id 9) and one for the ordinary watcher (id 0): the ordinary callback
fires inside the prefix, the signal callback is the final event, and the
drive loop returns. -/
theorem c4_signal_callback_last_witness :
    ∃ s' tr,
      drainPhase [⟨.watcher 9, 1⟩, ⟨.watcher 0, 1⟩] wPoll0 =
        .ret .signal s' (tr ++ [.signalCb])
      ∧ Ev.signalCb ∉ tr
      ∧ ∃ ev ∈ tr, isDelivery ev = true :=
  c4_signal_callback_last wPoll0 [⟨.watcher 9, 1⟩, ⟨.watcher 0, 1⟩]
    ⟨⟨.watcher 9, 1⟩, by simp,
      by refine ⟨rfl, by simp [wPoll0, wStSignal], by decide⟩⟩
    ⟨⟨.watcher 0, 1⟩, by simp,
      by refine ⟨by decide, by simp [wPoll0, wStSignal], by decide⟩⟩

/-- C1: in the WAIT state, both non-zero wait outcomes other than the
EINTR retry — -ETIME ("no completions within timeout") and -EAGAIN
("woken with nothing ready") — follow the same timeout policy: with a
positive remaining requested timeout, the correction
`real_timeout -= (loop->time - base)` is applied and then decides the
outcome — return to the caller when the budget is exhausted, loop again
(with the corrected timeout installed) otherwise; a zero effective
timeout returns at once and an infinite one loops with the budget
untouched.  No callback runs on either outcome (empty trace). -/
theorem c1_wait_outcome_timeout_policy (e : IterEnv) (s : PollSt)
    (hpre : e.preReady = []) (hpost : e.postWait = [])
    (hn : s.nevents = 0) (hsig : s.haveSignals = false)
    (hw : e.waitR = -ETIME ∨ e.waitR = -EAGAIN) :
    (0 < (if s.resetTimeout then s.userTimeout else s.realTimeout) →
      ((s.realTimeout - (((s.loopSt.time + e.elapsed : Nat) : Int) - (s.base : Int)) ≤ 0 →
        ∃ s', pollIter e s = .ret .budget s' []
          ∧ s'.realTimeout =
              s.realTimeout - (((s.loopSt.time + e.elapsed : Nat) : Int) - (s.base : Int)))
      ∧ (0 < s.realTimeout - (((s.loopSt.time + e.elapsed : Nat) : Int) - (s.base : Int)) →
        ∃ s', pollIter e s = .again s' []
          ∧ s'.realTimeout =
              s.realTimeout - (((s.loopSt.time + e.elapsed : Nat) : Int) - (s.base : Int))
          ∧ s'.timeout = s'.realTimeout)))
    ∧ ((if s.resetTimeout then s.userTimeout else s.realTimeout) = 0 →
        ∃ r s', pollIter e s = .ret r s' [])
    ∧ ((if s.resetTimeout then s.userTimeout else s.realTimeout) = -1 →
        ∃ s', pollIter e s = .again s' [] ∧ s'.realTimeout = s.realTimeout) := by
  have h11 : ¬ e.waitR = EAGAIN := by
    rcases hw with h | h <;> rw [h] <;> norm_num [EAGAIN, ETIME]
  unfold pollIter drainPhase drainBatch updateTimeout restoreReset
  simp only [hpre, hpost, List.isEmpty_nil, if_true, if_pos, h11, if_neg, if_false,
             hn, hsig]
  rcases hr : s.resetTimeout with _ | _ <;> rcases hw with h | h <;>
    simp only [h, hr] <;> norm_num [ETIME, EAGAIN] <;>
    split_ifs <;>
    (refine ⟨fun h0 => ⟨fun hle => ?_, fun hlt => ?_⟩, fun h0 => ?_, fun h0 => ?_⟩ <;>
     first
       | exact ⟨_, rfl, rfl⟩
       | exact ⟨_, rfl, rfl, rfl⟩
       | exact ⟨_, _, rfl⟩
       | omega)

/-- C1 witness: a -ETIME wait with 6 ms elapsed against a 10 ms budget
applies the correction (4 ms left) and loops again with the corrected
timeout installed. -/
theorem c1_wait_outcome_timeout_policy_witness :
    0 < (if wPoll10.resetTimeout then wPoll10.userTimeout else wPoll10.realTimeout)
    ∧ ∃ s', pollIter wIterEtime wPoll10 = .again s' []
      ∧ s'.realTimeout =
          wPoll10.realTimeout -
            (((wPoll10.loopSt.time + wIterEtime.elapsed : Nat) : Int) - (wPoll10.base : Int))
      ∧ s'.timeout = s'.realTimeout := by
  refine ⟨by norm_num [wPoll10], ?_⟩
  exact ((c1_wait_outcome_timeout_policy wIterEtime wPoll10 rfl rfl rfl rfl
    (Or.inl rfl)).1 (by norm_num [wPoll10])).2
    (by norm_num [wPoll10, wStSignal, wIterEtime])

/-- A completion that contributes no delivered event leaves only
non-delivery events (at most a rearm) in its trace. -/
theorem drainOne_nev_zero (st : LoopSt) (c : Cqe)
    (h : (drainOne st c).2.1 = 0) :
    ∀ ev ∈ (drainOne st c).2.2.2, isDelivery ev = false := by
  rcases c with ⟨tag, res⟩
  rcases tag with _ | _ | r | hh | wid
  · simp [drainOne]
  · simp [drainOne]
  · simp [drainOne] at h
  · simp [drainOne] at h
  · revert h
    simp only [drainOne]
    split_ifs <;> intro h <;> simp_all [isDelivery]

/-- A drained batch with a zero delivered-event count produced no
delivery events. -/
theorem drainBatch_nev_zero (batch : List Cqe) : ∀ (st : LoopSt),
    (drainBatch st batch).2.1 = 0 →
    ∀ ev ∈ (drainBatch st batch).2.2.2, isDelivery ev = false := by
  induction batch with
  | nil => intro st h; simp [drainBatch]
  | cons c rest ih =>
    intro st h ev hev
    rw [drainBatch] at h hev
    rcases hd : drainOne st c with ⟨st1, n1, s1, t1⟩
    rcases hb : drainBatch st1 rest with ⟨st2, n2, s2, t2⟩
    rw [hd] at h hev
    dsimp only at h hev
    rw [hb] at h hev
    dsimp only at h hev
    have h1 : n1 = 0 := by omega
    have h2 : n2 = 0 := by omega
    rcases List.mem_append.mp hev with hl | hr
    · exact drainOne_nev_zero st c (by rw [hd]; exact h1) ev (by rw [hd]; exact hl)
    · exact ih st1 (by rw [hb]; exact h2) ev (by rw [hb]; exact hr)

/-- Behaviour of the post-wait drain/production phase with respect to the
timeout invariant: iterating preserves the invariant (with the budget
correction applied), and returning happens with total elapsed time within
the caller's requested timeout; a budget-exhaustion return delivered
nothing. -/
theorem drainPhase_spec (T : Int) (batch : List Cqe) (s : PollSt)
    (hT : 0 ≤ T)
    (hn : s.nevents = 0) (hsig : s.haveSignals = false)
    (hb : s.base ≤ s.loopSt.time)
    (ht0 : 0 ≤ s.timeout)
    (h0 : 0 ≤ s.realTimeout)
    (hrT : s.realTimeout ≤ T)
    (hDT : (s.loopSt.time : Int) - (s.base : Int) ≤ T)
    (htm : s.resetTimeout = true → s.userTimeout = T) :
    (∀ s' tr, drainPhase batch s = .again s' tr →
        PollInv T s' ∧ s'.base = s.base ∧ ∀ ev ∈ tr, isDelivery ev = false)
    ∧ (∀ r s' tr, drainPhase batch s = .ret r s' tr →
        ((s'.loopSt.time : Int) - (s'.base : Int) ≤ T) ∧ s'.base = s.base
        ∧ (r = .budget → s'.realTimeout ≤ 0 ∧ ∀ ev ∈ tr, isDelivery ev = false)) := by
  obtain ⟨hps, hpw, hpt, hpm⟩ := drainBatch_preserves batch s.loopSt
  have hnz := drainBatch_nev_zero batch s.loopSt
  rcases hB : drainBatch s.loopSt batch with ⟨st1, nev, sig, tr1⟩
  rw [hB] at hpt hnz
  dsimp only at hpt hnz
  constructor
  · intro s' tr h
    unfold drainPhase restoreReset updateTimeout at h
    rw [hB] at h
    dsimp only at h
    simp only [hn, hsig, Bool.false_or, Nat.zero_add] at h
    rcases hres : s.resetTimeout with _ | _
    · simp only [hres, Bool.false_eq_true, if_false] at h
      split_ifs at h <;> cases h <;>
        refine ⟨?_, rfl, hnz (by omega)⟩ <;>
        (unfold PollInv
         dsimp only
         refine ⟨?_, ?_, ?_, ?_, ?_, ?_, ?_, ?_⟩ <;> first | omega | simp_all)
    · have hum : s.userTimeout = T := htm hres
      simp only [hres, eq_self_iff_true, if_true] at h
      split_ifs at h <;> cases h <;>
        refine ⟨?_, rfl, hnz (by omega)⟩ <;>
        (unfold PollInv
         dsimp only
         refine ⟨?_, ?_, ?_, ?_, ?_, ?_, ?_, ?_⟩ <;> first | omega | simp_all)
  · intro r s' tr h
    unfold drainPhase restoreReset updateTimeout at h
    rw [hB] at h
    dsimp only at h
    simp only [hn, hsig, Bool.false_or, Nat.zero_add] at h
    rcases hres : s.resetTimeout with _ | _
    · simp only [hres, Bool.false_eq_true, if_false] at h
      split_ifs at h <;> cases h <;>
        refine ⟨by (try dsimp only); omega, rfl, fun hx => ?_⟩ <;>
        first
          | exact ⟨by (try dsimp only); omega, hnz (by omega)⟩
          | cases hx
    · have hum : s.userTimeout = T := htm hres
      simp only [hres, eq_self_iff_true, if_true] at h
      split_ifs at h <;> cases h <;>
        refine ⟨by (try dsimp only); omega, rfl, fun hx => ?_⟩ <;>
        first
          | exact ⟨by (try dsimp only); omega, hnz (by omega)⟩
          | cases hx

/-- One pass of the drive loop preserves the timeout invariant when it
iterates, and respects the deadline when it returns; a budget-exhaustion
return delivers no completion. -/
theorem pollIter_inv (T : Int) (e : IterEnv) (s : PollSt)
    (hT : 0 ≤ T)
    (hInv : PollInv T s)
    (hw : e.waitR = 0 ∨ e.waitR = -EAGAIN ∨ e.waitR = -ETIME)
    (he : e.preReady = [] → (e.elapsed : Int) ≤ s.timeout) :
    (∀ s' tr, pollIter e s = .again s' tr →
        PollInv T s' ∧ s'.base = s.base ∧ ∀ ev ∈ tr, isDelivery ev = false)
    ∧ (∀ r s' tr, pollIter e s = .ret r s' tr →
        ((s'.loopSt.time : Int) - (s'.base : Int) ≤ T) ∧ s'.base = s.base
        ∧ (r = .budget → s'.realTimeout ≤ 0 ∧ ∀ ev ∈ tr, isDelivery ev = false)) := by
  obtain ⟨hb, hsum, h0, ht0, hres5, hres6, hn, hsig⟩ := hInv
  have h11 : ¬ e.waitR = EAGAIN := by
    rcases hw with h | h | h <;> rw [h] <;> norm_num [EAGAIN, ETIME]
  have hfacts : s.timeout ≤ s.realTimeout ∨
      (s.timeout = 0 ∧ s.userTimeout = T ∧ s.realTimeout = T) := by
    rcases hx : s.resetTimeout with _ | _
    · exact Or.inl (hres6 hx)
    · exact Or.inr (hres5 hx)
  rcases hpre : e.preReady with _ | ⟨c, cs⟩
  · -- nothing ready: the loop waits
    have helap : (e.elapsed : Int) ≤ s.timeout := he hpre
    by_cases het : e.waitR = -ETIME
    · -- wait timed out
      constructor
      · intro s' tr h
        unfold pollIter restoreReset updateTimeout at h
        simp only [hpre, List.isEmpty_nil, eq_self_iff_true, if_true, h11,
                   if_false, het] at h
        rcases hres : s.resetTimeout with _ | _ <;>
          simp only [hres, Bool.false_eq_true, if_false, eq_self_iff_true,
                     if_true] at h <;>
          [skip; (obtain ⟨hu1, hu2, hu3⟩ := hres5 hres)] <;>
          split_ifs at h <;> cases h <;>
          refine ⟨?_, rfl, fun ev hev => absurd hev (List.not_mem_nil ev)⟩ <;>
          (unfold PollInv
           dsimp only
           refine ⟨?_, ?_, ?_, ?_, ?_, ?_, ?_, ?_⟩ <;>
             first | omega | simp_all | (rcases hfacts with hf | ⟨hf1, hf2, hf3⟩ <;> omega))
      · intro r s' tr h
        unfold pollIter restoreReset updateTimeout at h
        simp only [hpre, List.isEmpty_nil, eq_self_iff_true, if_true, h11,
                   if_false, het] at h
        rcases hres : s.resetTimeout with _ | _ <;>
          simp only [hres, Bool.false_eq_true, if_false, eq_self_iff_true,
                     if_true] at h <;>
          [skip; (obtain ⟨hu1, hu2, hu3⟩ := hres5 hres)] <;>
          split_ifs at h <;> cases h <;>
          refine ⟨?_, rfl, fun hx => ?_⟩ <;>
          first
            | (exact ⟨by (try dsimp only); omega,
                      fun ev hev => absurd hev (List.not_mem_nil ev)⟩)
            | cases hx
            | (dsimp only
               rcases hfacts with hf | ⟨hf1, hf2, hf3⟩ <;> omega)
    · -- wait returned 0 or -EAGAIN: drain whatever is ready
      have hw0 : (0:Int) ≤ s.timeout := ht0
      have hspec := drainPhase_spec T e.postWait
        { s with timeout := s.realTimeout,
                 loopSt := { s.loopSt with time := s.loopSt.time + e.elapsed } }
        hT hn hsig (by dsimp only; omega) (by dsimp only; omega)
        (by dsimp only; omega)
        (by dsimp only; rcases hfacts with hf | ⟨hf1, hf2, hf3⟩ <;> omega)
        (by dsimp only
            push_cast
            rcases hfacts with hf | ⟨hf1, hf2, hf3⟩ <;> omega)
        (fun hx => (hres5 hx).2.1)
      have hpoll : pollIter e s = drainPhase e.postWait
          { s with timeout := s.realTimeout,
                   loopSt := { s.loopSt with time := s.loopSt.time + e.elapsed } } := by
        unfold pollIter
        simp only [hpre, List.isEmpty_nil, eq_self_iff_true, if_true, h11,
                   if_false, het]
      rw [hpoll]
      exact hspec
  · -- completions already queued: no wait, drain directly
    have hspec := drainPhase_spec T (c :: cs) s hT hn hsig hb ht0 h0
      (by omega) (by omega) (fun hx => (hres5 hx).2.1)
    have hpoll : pollIter e s = drainPhase (c :: cs) s := by
      unfold pollIter
      simp only [hpre, List.isEmpty_cons, if_false, Bool.false_eq_true]
    rw [hpoll]
    exact hspec

/-- Whenever a pass of the drive loop decides to iterate (finite
non-negative budget, probe already restored), the elapsed time since the
poll's base timestamp has been subtracted from the remaining budget and
the corrected budget installed as the next wait bound. -/
theorem pollIter_again_sub (e : IterEnv) (s : PollSt)
    (hr : s.resetTimeout = false) (h0 : 0 ≤ s.realTimeout) (ht0 : 0 ≤ s.timeout) :
    ∀ s' tr, pollIter e s = .again s' tr →
      s'.realTimeout = s.realTimeout - ((s'.loopSt.time : Int) - (s.base : Int))
      ∧ s'.timeout = s'.realTimeout := by
  intro s' tr h
  unfold pollIter drainPhase restoreReset updateTimeout at h
  rcases hpre : e.preReady with _ | ⟨c, cs⟩ <;>
    simp only [hpre, List.isEmpty_nil, List.isEmpty_cons, eq_self_iff_true,
               if_true, if_false, Bool.false_eq_true, hr] at h
  · by_cases h11 : e.waitR = EAGAIN
    · simp only [h11, eq_self_iff_true, if_true] at h
      split_ifs at h <;> cases h <;> exact ⟨by dsimp only <;> omega, by dsimp only <;> omega⟩
    · simp only [h11, if_false] at h
      by_cases het : e.waitR = -ETIME <;>
        simp only [het, eq_self_iff_true, if_true, if_false] at h
      · split_ifs at h <;> cases h <;> exact ⟨by dsimp only <;> omega, by dsimp only <;> omega⟩
      · rcases hB : drainBatch { s.loopSt with time := s.loopSt.time + e.elapsed }
            e.postWait with ⟨st1, nev, sig, tr1⟩
        rw [hB] at h
        dsimp only at h
        split_ifs at h <;> cases h <;> exact ⟨by dsimp only <;> omega, by dsimp only <;> omega⟩
  · rcases hB : drainBatch s.loopSt (c :: cs) with ⟨st1, nev, sig, tr1⟩
    rw [hB] at h
    dsimp only at h
    split_ifs at h <;> cases h <;> exact ⟨by dsimp only <;> omega, by dsimp only <;> omega⟩

/-- The drive loop, started in an invariant state under a well-formed
kernel oracle, accumulates at most T of blocking time before returning,
and a budget-exhaustion return delivers nothing. -/
theorem pollLoop_budget (T : Int) (hT : 0 ≤ T) :
    ∀ (fuel : Nat) (env : Nat → IterEnv) (k : Nat) (s : PollSt),
      PollInv T s → EnvOk env fuel k s →
      ((pollLoop fuel env k s).2.2 ≠ .fuelOut →
        (((pollLoop fuel env k s).1.loopSt.time : Int) -
          ((pollLoop fuel env k s).1.base : Int) ≤ T)
        ∧ (pollLoop fuel env k s).1.base = s.base)
      ∧ ((pollLoop fuel env k s).2.2 = .budget →
        (pollLoop fuel env k s).1.realTimeout ≤ 0
        ∧ ∀ ev ∈ (pollLoop fuel env k s).2.1, isDelivery ev = false) := by
  intro fuel
  induction fuel with
  | zero =>
    intro env k s hInv henv
    constructor
    · intro hne
      exact absurd rfl hne
    · intro hb
      rw [pollLoop] at hb
      cases hb
  | succ n ih =>
    intro env k s hInv henv
    rw [EnvOk] at henv
    obtain ⟨hw, he, hnext⟩ := henv
    have hiter := pollIter_inv T (env k) s hT hInv hw he
    rcases hp : pollIter (env k) s with ⟨r, s1, tr⟩ | ⟨s1, tr⟩
    · have hcon := hiter.2 r s1 tr hp
      have hred : pollLoop (n + 1) env k s = (s1, tr, r) := by
        rw [pollLoop, hp]
      rw [hred]
      exact ⟨fun _ => ⟨hcon.1, hcon.2.1⟩, fun hb => hcon.2.2 hb⟩
    · have hcon := hiter.1 s1 tr hp
      have hnext' : EnvOk env n (k + 1) s1 := by
        rw [hp] at hnext
        exact hnext
      have hrec := ih env (k + 1) s1 hcon.1 hnext'
      have hred : pollLoop (n + 1) env k s =
          ((pollLoop n env (k + 1) s1).1,
           tr ++ (pollLoop n env (k + 1) s1).2.1,
           (pollLoop n env (k + 1) s1).2.2) := by
        rw [pollLoop, hp]
      rw [hred]
      constructor
      · intro hne
        have h1 := hrec.1 hne
        exact ⟨h1.1, h1.2.trans hcon.2.1⟩
      · intro hb
        have h2 := hrec.2 hb
        refine ⟨h2.1, fun ev hev => ?_⟩
        rcases List.mem_append.mp hev with hl | hr2
        · exact hcon.2.2 ev hl
        · exact h2.2 ev hr2

/-- The drive-loop locals built by lines 157-206 satisfy the timeout
invariant for any non-negative requested timeout. -/
theorem ioPollInit_inv (T : Int) (hT : 0 ≤ T) (env : PollEnv) (metrics : Bool)
    (st : LoopSt) : PollInv T (ioPollInit env metrics st T) := by
  unfold ioPollInit PollInv
  rcases metrics with _ | _ <;>
    simp only [Bool.false_eq_true, if_false, eq_self_iff_true, if_true] <;>
    (try dsimp only) <;>
    refine ⟨?_, ?_, ?_, ?_, ?_, ?_, ?_, ?_⟩ <;>
    first
      | trivial
      | rfl
      | omega
      | (intro hx; exact hx.elim)
      | (intro hx; exact ⟨rfl, rfl, rfl⟩)
      | (intro hx; omega)

/-- C6: for a requested timeout T ≥ 0, (i) every iterating pass subtracts
the elapsed time from the remaining budget before the next wait and
installs the corrected bound, (ii) under a kernel that honours its wait
bounds the cumulative blocking time across all retries never exceeds T,
and (iii) an exhausted budget returns immediately with no completions
delivered. -/
theorem c6_deadline_and_budget (T : Int) (fuel : Nat) (env : PollEnv)
    (metrics : Bool) (st : LoopSt)
    (hT : 0 ≤ T) (hn : st.nfds ≠ 0)
    (henv : EnvOk env.iters fuel 0 (ioPollInit env metrics st T)) :
    (∀ (e : IterEnv) (s1 s2 : PollSt) (tr : List Ev),
        s1.resetTimeout = false → 0 ≤ s1.realTimeout → 0 ≤ s1.timeout →
        pollIter e s1 = .again s2 tr →
        s2.realTimeout = s1.realTimeout - ((s2.loopSt.time : Int) - (s1.base : Int))
        ∧ s2.timeout = s2.realTimeout)
    ∧ ((uv__uring_io_poll fuel env metrics st T).2.2 ≠ .fuelOut →
        (((uv__uring_io_poll fuel env metrics st T).1.loopSt.time : Int) -
          ((uv__uring_io_poll fuel env metrics st T).1.base : Int) ≤ T))
    ∧ ((uv__uring_io_poll fuel env metrics st T).2.2 = .budget →
        (uv__uring_io_poll fuel env metrics st T).1.realTimeout ≤ 0
        ∧ ∀ ev ∈ (uv__uring_io_poll fuel env metrics st T).2.1,
            isDelivery ev = false) := by
  have hloop := pollLoop_budget T hT fuel env.iters 0 (ioPollInit env metrics st T)
    (ioPollInit_inv T hT env metrics st) henv
  have hred : uv__uring_io_poll fuel env metrics st T =
      ((pollLoop fuel env.iters 0 (ioPollInit env metrics st T)).1,
       ((submitWatchers { st with watcherQueue := [] } st.watcherQueue).2.map
         Ev.sqeWrite) ++
         (pollLoop fuel env.iters 0 (ioPollInit env metrics st T)).2.1,
       (pollLoop fuel env.iters 0 (ioPollInit env metrics st T)).2.2) := by
    unfold uv__uring_io_poll
    simp only [hn, if_false]
  rw [hred]
  refine ⟨fun e s1 s2 tr h1 h2 h3 hp => pollIter_again_sub e s1 h1 h2 h3 s2 tr hp,
          fun hne => (hloop.1 hne).1, fun hb => ?_⟩
  have h2 := hloop.2 hb
  refine ⟨h2.1, fun ev hev => ?_⟩
  rcases List.mem_append.mp hev with hl | hr2
  · obtain ⟨sqe, _, hsq⟩ := List.mem_map.mp hl
    rw [← hsq]
    rfl
  · exact h2.2 ev hr2

/-- C6 witness: a 10 ms request against an oracle whose wait times out
after exactly 10 ms returns with reason budget, a non-positive remaining
budget, and cumulative blocking time within the request. -/
theorem c6_deadline_and_budget_witness :
    (uv__uring_io_poll 1 wEnvT false wStSignal 10).2.2 = .budget
    ∧ (uv__uring_io_poll 1 wEnvT false wStSignal 10).1.realTimeout ≤ 0
    ∧ (((uv__uring_io_poll 1 wEnvT false wStSignal 10).1.loopSt.time : Int) -
        ((uv__uring_io_poll 1 wEnvT false wStSignal 10).1.base : Int) ≤ 10) := by
  have henv : EnvOk wEnvT.iters 1 0 (ioPollInit wEnvT false wStSignal 10) := by
    rw [EnvOk]
    refine ⟨Or.inr (Or.inr rfl), fun _ => by decide, ?_⟩
    cases hx : pollIter (wEnvT.iters 0) (ioPollInit wEnvT false wStSignal 10) <;>
      simp [EnvOk]
  have h := c6_deadline_and_budget 10 1 wEnvT false wStSignal (by norm_num)
    (by decide) henv
  have hb : (uv__uring_io_poll 1 wEnvT false wStSignal 10).2.2 = .budget := by decide
  exact ⟨hb, (h.2.2 hb).1, h.2.1 (by rw [hb]; decide)⟩

end LibuvUring
